import Mathlib

/-!
Shallow embedding of the plan requirement computation engine
(`PlanComputationUtils`, `src/utils/plan/plan-computation.utils.ts`) of the
fgo-planner web client.  TypeScript objects keyed by numbers are embedded as
association lists `List (Nat × α)` preserving JavaScript key insertion order;
mutation is embedded as explicit state passing; optional (possibly
`undefined`/`null`) values are embedded as `Option`.
-/

namespace PlanComputation

/-- JavaScript truthiness of an optional boolean: `undefined` and `false` are
falsy, `true` is truthy. -/
def truthy (b : Option Bool) : Bool :=
  b.getD false

/-- JavaScript `a && b` on optional booleans: returns `a` when `a` is falsy
(`undefined` or `false`), otherwise returns `b`. -/
def jsAnd (a b : Option Bool) : Option Bool :=
  match a with
  | none => none
  | some false => some false
  | some true => b

/-- Lookup in an association list keyed by `Nat` (JS `obj[key]`, `undefined`
when absent). -/
def findAssoc {α : Type} (l : List (Nat × α)) (k : Nat) : Option α :=
  (l.find? (fun kv => kv.1 == k)).map Prod.snd

/-- JS `obj[key] = v`: replaces the value at an existing key in place,
otherwise appends the new key at the end (JS insertion order). -/
def setAssoc {α : Type} (l : List (Nat × α)) (k : Nat) (v : α) : List (Nat × α) :=
  if l.any (fun kv => kv.1 == k) then
    l.map (fun kv => if kv.1 == k then (kv.1, v) else kv)
  else
    l ++ [(k, v)]

/-- The keys of an association list. -/
def assocKeys {α : Type} (l : List (Nat × α)) : List Nat :=
  l.map Prod.fst

/-- Modelled from the spec: `InstantiatedServantConstants.MaxSkillLevel` from
the external `@fgo-planner/data-core` package; the spec gives the skill level
range as 1..10. -/
def MaxSkillLevel : Nat := 10

/-- Modelled from the spec: `InstantiatedServantConstants.MaxAscensionLevel`
from the external `@fgo-planner/data-core` package; the spec gives the
ascension range as 0..4. -/
def MaxAscensionLevel : Nat := 4

/-- Embeds `PlanEnhancementItemRequirements`: per-material subtotals and grand
total. -/
structure EnhancementItemRequirements where
  ascensions : Nat
  skills : Nat
  appendSkills : Nat
  costumes : Nat
  total : Nat
deriving DecidableEq, Repr

/-- Ember (exp card) counts by rarity 1..5. -/
structure Embers where
  r1 : Nat
  r2 : Nat
  r3 : Nat
  r4 : Nat
  r5 : Nat
deriving DecidableEq, Repr

/-- Embeds `PlanEnhancementRequirements`: embers by rarity, per-item requirement
records keyed by item id, and a QP amount. -/
structure EnhancementRequirements where
  embers : Embers
  items : List (Nat × EnhancementItemRequirements)
  qp : Nat
deriving DecidableEq, Repr

/-- Embeds `_instantiateEnhancementItemRequirements`: the all-zero per-item record. -/
def _instantiateEnhancementItemRequirements : EnhancementItemRequirements :=
  { ascensions := 0, skills := 0, appendSkills := 0, costumes := 0, total := 0 }

/-- Embeds `_instantiateEnhancementRequirements`: all ember counts zero, empty item
map, zero QP. -/
def _instantiateEnhancementRequirements : EnhancementRequirements :=
  { embers := { r1 := 0, r2 := 0, r3 := 0, r4 := 0, r5 := 0 }, items := [], qp := 0 }

/-- Embeds `_addEnhancementItemRequirements`: field-wise addition of a source
per-item record into a target per-item record. -/
def _addEnhancementItemRequirements (target source : EnhancementItemRequirements) :
    EnhancementItemRequirements :=
  { ascensions := target.ascensions + source.ascensions
    skills := target.skills + source.skills
    appendSkills := target.appendSkills + source.appendSkills
    costumes := target.costumes + source.costumes
    total := target.total + source.total }

/-- Field-wise addition of ember counts (the ember loop of
`addEnhancementRequirements`, which iterates keys 1..5 of the source). -/
def addEmbers (target source : Embers) : Embers :=
  { r1 := target.r1 + source.r1
    r2 := target.r2 + source.r2
    r3 := target.r3 + source.r3
    r4 := target.r4 + source.r4
    r5 := target.r5 + source.r5 }

/-- One step of the item loop of `addEnhancementRequirements`: if the key is
absent from the target a copy of the source record is appended, otherwise the
existing record is updated field-wise. -/
def addItemsStep (acc : List (Nat × EnhancementItemRequirements))
    (kv : Nat × EnhancementItemRequirements) : List (Nat × EnhancementItemRequirements) :=
  if acc.any (fun e => e.1 == kv.1) then
    acc.map (fun e => if e.1 == kv.1 then (e.1, _addEnhancementItemRequirements e.2 kv.2) else e)
  else
    acc ++ [kv]

/-- The item loop of `addEnhancementRequirements`: folds `addItemsStep` over
the source entries. -/
def addItems (target source : List (Nat × EnhancementItemRequirements)) :
    List (Nat × EnhancementItemRequirements) :=
  source.foldl addItemsStep target

/-- Embeds `addEnhancementRequirements`: adds the values of the source record to the
target record (embedded as returning the updated target). -/
def addEnhancementRequirements (target source : EnhancementRequirements) :
    EnhancementRequirements :=
  { embers := addEmbers target.embers source.embers
    items := addItems target.items source.items
    qp := target.qp + source.qp }

/-- Embeds `sumEnhancementRequirements`: folds `addEnhancementRequirements` over the
array starting from a freshly instantiated all-zero record. -/
def sumEnhancementRequirements (arr : List EnhancementRequirements) :
    EnhancementRequirements :=
  arr.foldl addEnhancementRequirements _instantiateEnhancementRequirements

/-- Field-by-field equality of two requirement records: equal embers, equal
QP, and for every item id the same (optional) per-item record. -/
def fieldEq (a b : EnhancementRequirements) : Prop :=
  a.embers = b.embers ∧ a.qp = b.qp ∧ ∀ id, findAssoc a.items id = findAssoc b.items id

/-- Embeds `ComputationOptions`: every field is optional (may be `undefined`). -/
structure ComputationOptions where
  includeAscensions : Option Bool := none
  includeSkills : Option Bool := none
  includeAppendSkills : Option Bool := none
  includeCostumes : Option Bool := none
  excludeLores : Option Bool := none
deriving DecidableEq, Repr

/-- Embeds `_defaultOptions`: the four include flags `true`, `excludeLores` absent. -/
def _defaultOptions : ComputationOptions :=
  { includeAscensions := some true
    includeSkills := some true
    includeAppendSkills := some true
    includeCostumes := some true }

/-- Embeds `_mergeComputationOptions`, exactly as in the source, including the fact
that the `includeAscensions` field is computed as
`a.includeAscensions && a.includeAscensions` (the source repeats `a`). -/
def _mergeComputationOptions (a b : ComputationOptions) : ComputationOptions :=
  { includeAscensions := jsAnd a.includeAscensions a.includeAscensions
    includeSkills := jsAnd a.includeSkills b.includeSkills
    includeAppendSkills := jsAnd a.includeAppendSkills b.includeAppendSkills
    includeCostumes := jsAnd a.includeCostumes b.includeCostumes
    excludeLores := jsAnd a.excludeLores b.excludeLores }

/-- Embeds `SkillEnhancements`: levels of the three skill slots, each possibly
absent. -/
structure SkillEnhancements where
  s1 : Option Nat := none
  s2 : Option Nat := none
  s3 : Option Nat := none
deriving DecidableEq, Repr

/-- Embeds `ServantEnhancements`: ascension level plus regular and append skill
levels. -/
structure ServantEnhancements where
  ascension : Option Nat := none
  skills : SkillEnhancements := {}
  appendSkills : SkillEnhancements := {}
deriving DecidableEq, Repr

/-- Embeds `_defaultTargetEnhancements`: max ascension and all six skills at max
level. -/
def _defaultTargetEnhancements : ServantEnhancements :=
  { ascension := some MaxAscensionLevel
    skills := { s1 := some MaxSkillLevel, s2 := some MaxSkillLevel, s3 := some MaxSkillLevel }
    appendSkills := { s1 := some MaxSkillLevel, s2 := some MaxSkillLevel, s3 := some MaxSkillLevel } }

/-- Embeds `GameServantEnhancement`: one enhancement step's cost — material
quantities keyed by item id, plus a QP amount. -/
structure GameServantEnhancement where
  materials : List (Nat × Nat)
  qp : Nat
deriving DecidableEq, Repr

/-- A catalog costume entry (only its `materials` cost is read by the
engine). -/
structure GameServantCostume where
  materials : GameServantEnhancement
deriving DecidableEq, Repr

/-- Embeds `GameServant` catalog entry: per-level skill and append-skill cost tables
(levels may be missing), an optional ascension cost table, and a costume cost
table keyed by costume id. -/
structure GameServant where
  skillMaterials : List (Nat × GameServantEnhancement)
  appendSkillMaterials : List (Nat × GameServantEnhancement)
  ascensionMaterials : Option (List (Nat × GameServantEnhancement))
  costumes : List (Nat × GameServantCostume)
deriving DecidableEq, Repr

/-- The category (`propertyKey`) a contribution is recorded under. -/
inductive EnhancementCategory
  | ascensions
  | skills
  | appendSkills
  | costumes
deriving DecidableEq, Repr

/-- Embeds `itemCount[propertyKey] += n; itemCount.total += n` for one per-item
record. -/
def addToCategory (e : EnhancementItemRequirements) (cat : EnhancementCategory) (n : Nat) :
    EnhancementItemRequirements :=
  match cat with
  | .ascensions => { e with ascensions := e.ascensions + n, total := e.total + n }
  | .skills => { e with skills := e.skills + n, total := e.total + n }
  | .appendSkills => { e with appendSkills := e.appendSkills + n, total := e.total + n }
  | .costumes => { e with costumes := e.costumes + n, total := e.total + n }

/-- Embeds `_updateEnhancementRequirementResult`: for each material of the
enhancement step, add `quantity * enhancementCount` to the item's category
subtotal and grand total (creating an all-zero record for a missing item id),
then add `enhancement.qp * enhancementCount` to the QP total. -/
def _updateEnhancementRequirementResult (result : EnhancementRequirements)
    (enhancement : GameServantEnhancement) (propertyKey : EnhancementCategory)
    (enhancementCount : Nat) : EnhancementRequirements :=
  let items := enhancement.materials.foldl
    (fun acc kv =>
      let itemId := kv.1
      let total := kv.2 * enhancementCount
      let itemCount := (findAssoc acc itemId).getD _instantiateEnhancementItemRequirements
      setAssoc acc itemId (addToCategory itemCount propertyKey total))
    result.items
  { result with items := items, qp := result.qp + enhancement.qp * enhancementCount }

/-- The inline `skillUpgradeCount` expression of `_updateResultForSkills`: a
slot counts unless its current level is above the catalog level or the
catalog level is at or above its target level. -/
def skillUpgradeCount (currentSkills targetSkills : SkillEnhancements) (skillLevel : Nat) : Nat :=
  (if currentSkills.s1.getD 0 > skillLevel ∨ skillLevel ≥ targetSkills.s1.getD 0 then 0 else 1) +
  (if currentSkills.s2.getD 0 > skillLevel ∨ skillLevel ≥ targetSkills.s2.getD 0 then 0 else 1) +
  (if currentSkills.s3.getD 0 > skillLevel ∨ skillLevel ≥ targetSkills.s3.getD 0 then 0 else 1)

/-- Embeds `_updateResultForSkills`: walk the catalog's per-level cost table; skip
the `MaxSkillLevel - 1` entry when `excludeLores` is truthy; skip levels where
no slot needs an upgrade; otherwise record the cost multiplied by the number
of slots still needing that level. -/
def _updateResultForSkills (result : EnhancementRequirements)
    (skillMaterials : List (Nat × GameServantEnhancement))
    (currentSkills targetSkills : SkillEnhancements)
    (skillType : EnhancementCategory) (excludeLores : Option Bool) :
    EnhancementRequirements :=
  skillMaterials.foldl
    (fun res entry =>
      let skillLevel := entry.1
      if truthy excludeLores ∧ skillLevel = MaxSkillLevel - 1 then
        res
      else
        let count := skillUpgradeCount currentSkills targetSkills skillLevel
        if count = 0 then
          res
        else
          _updateEnhancementRequirementResult res entry.2 skillType count)
    result

/-- The ascension loop of `_computeServantEnhancementRequirements`: each
catalog ascension level strictly above the current level and at or below the
target level contributes its one-time cost. -/
def updateResultForAscensions (result : EnhancementRequirements)
    (ascensionMaterials : List (Nat × GameServantEnhancement))
    (currentAscension : Option Nat) (targetAscension : Nat) :
    EnhancementRequirements :=
  ascensionMaterials.foldl
    (fun res entry =>
      let ascensionLevel := entry.1
      if currentAscension.getD 0 ≥ ascensionLevel ∨ ascensionLevel > targetAscension then
        res
      else
        _updateEnhancementRequirementResult res entry.2 .ascensions 1)
    result

/-- The costume loop of `_computeServantEnhancementRequirements`: a costume is
skipped when it is already unlocked, or when a target costume set is given and
does not contain it; otherwise its one-time cost is recorded. -/
def updateResultForCostumes (result : EnhancementRequirements)
    (costumes : List (Nat × GameServantCostume))
    (currentCostumes : List Nat) (targetCostumes : Option (List Nat)) :
    EnhancementRequirements :=
  costumes.foldl
    (fun res entry =>
      let costumeId := entry.1
      if currentCostumes.contains costumeId ||
          (match targetCostumes with
           | some ts => !ts.contains costumeId
           | none => false) then
        res
      else
        _updateEnhancementRequirementResult res entry.2.materials .costumes 1)
    result

/-- Embeds `_computeServantEnhancementRequirements`: runs the skill, append-skill,
ascension and costume passes, each gated by the corresponding (truthy) option
flag; the ascension pass additionally requires a non-null target ascension and
a present catalog ascension table. -/
def _computeServantEnhancementRequirements (gameServant : GameServant)
    (currentEnhancements : ServantEnhancements) (currentCostumes : List Nat)
    (targetEnhancements : ServantEnhancements) (targetCostumes : Option (List Nat))
    (options : ComputationOptions) : EnhancementRequirements :=
  let result := _instantiateEnhancementRequirements
  let result :=
    if truthy options.includeSkills then
      _updateResultForSkills result gameServant.skillMaterials
        currentEnhancements.skills targetEnhancements.skills .skills options.excludeLores
    else result
  let result :=
    if truthy options.includeAppendSkills then
      _updateResultForSkills result gameServant.appendSkillMaterials
        currentEnhancements.appendSkills targetEnhancements.appendSkills .appendSkills
        options.excludeLores
    else result
  let result :=
    match targetEnhancements.ascension with
    | none => result
    | some targetAscension =>
      if truthy options.includeAscensions then
        match gameServant.ascensionMaterials with
        | none => result
        | some ascensionMaterials =>
          updateResultForAscensions result ascensionMaterials
            currentEnhancements.ascension targetAscension
      else result
  let result :=
    if truthy options.includeCostumes then
      updateResultForCostumes result gameServant.costumes currentCostumes targetCostumes
    else result
  result

/-- Embeds `computeServantEnhancementRequirements` (public single-servant entry
point): computes against the fixed max-everything target, with no target
costume set (all costumes targeted) and the default options when none are
given. -/
def computeServantEnhancementRequirements (gameServant : GameServant)
    (currentEnhancements : ServantEnhancements) (currentCostumes : List Nat)
    (options : Option ComputationOptions) : EnhancementRequirements :=
  _computeServantEnhancementRequirements gameServant currentEnhancements currentCostumes
    _defaultTargetEnhancements none (options.getD _defaultOptions)

/-- The shared shape of `Plan.enabled` and the axis part of
`PlanServant.enabled`: per-axis enabled flags. -/
structure PlanEnabled where
  ascensions : Bool
  skills : Bool
  appendSkills : Bool
  costumes : Bool
deriving DecidableEq, Repr

/-- Embeds `PlanServant.enabled`: the per-axis flags plus the overall `servant`
flag. -/
structure PlanServantEnabled extends PlanEnabled where
  servant : Bool
deriving DecidableEq, Repr

/-- Embeds `_parseComputationOptions`: reads the four per-axis enabled flags of a
plan or plan servant; `excludeLores` is never set here. -/
def _parseComputationOptions (enabled : PlanEnabled) : ComputationOptions :=
  { includeAscensions := some enabled.ascensions
    includeSkills := some enabled.skills
    includeAppendSkills := some enabled.appendSkills
    includeCostumes := some enabled.costumes }

/-- Embeds `PlanServant`: a per-unit target directive — instance id, enabled flags,
and the target enhancement levels. -/
structure PlanServant where
  instanceId : Nat
  enabled : PlanServantEnabled
  ascension : Option Nat := none
  skills : SkillEnhancements := {}
  appendSkills : SkillEnhancements := {}
deriving DecidableEq, Repr

/-- The enhancement-state fields carried by a plan servant directive. -/
def PlanServant.enhancements (ps : PlanServant) : ServantEnhancements :=
  { ascension := ps.ascension, skills := ps.skills, appendSkills := ps.appendSkills }

/-- Embeds `Plan`: id, plan-level enabled flags, the per-unit directives, and the
plan-level target costume id set. -/
structure Plan where
  _id : Nat
  enabled : PlanEnabled
  servants : List PlanServant
  costumes : List Nat
deriving DecidableEq, Repr

/-- Embeds `MasterServant`: an owned unit — instance id, catalog (game) id, and the
live enhancement levels recorded in the account. -/
structure MasterServant where
  instanceId : Nat
  gameId : Nat
  ascension : Option Nat := none
  skills : SkillEnhancements := {}
  appendSkills : SkillEnhancements := {}
deriving DecidableEq, Repr

/-- The enhancement-state fields carried by a master servant. -/
def MasterServant.enhancements (ms : MasterServant) : ServantEnhancements :=
  { ascension := ms.ascension, skills := ms.skills, appendSkills := ms.appendSkills }

/-- Embeds `MasterAccount.resources`: item inventory keyed by item id, and QP. -/
structure MasterAccountResources where
  items : List (Nat × Nat)
  qp : Nat
deriving DecidableEq, Repr

/-- Embeds `ImmutableMasterAccount` (the fields read by the engine). -/
structure MasterAccount where
  servants : List MasterServant
  resources : MasterAccountResources
  costumes : List Nat
deriving DecidableEq, Repr

/-- Embeds `MasterAccountData`: the pre-processed account — servants indexed by
instance id, the inventory, the unlocked costume set, and QP. -/
structure MasterAccountData where
  items : List (Nat × Nat)
  servants : List (Nat × MasterServant)
  costumes : List Nat
  qp : Nat
deriving DecidableEq, Repr

/-- Embeds `_preProcessMasterAccount`: indexes the servant array by instance id
(`CollectionUtils.mapIterableToObject`, later duplicates overwriting earlier
ones), keeps the inventory record and QP value, and materializes the
unlocked-costume set (`new Set(...)`). -/
def _preProcessMasterAccount (masterAccount : MasterAccount) : MasterAccountData :=
  { items := masterAccount.resources.items
    servants := masterAccount.servants.foldl (fun acc s => setAssoc acc s.instanceId s) []
    costumes := masterAccount.costumes
    qp := masterAccount.resources.qp }

/-- Embeds `PlanServantRequirements`: the per-unit entry of the result — the running
current and target enhancement states of the chain walk, and the unit's
accumulated requirements for the target plan. -/
structure PlanServantRequirements where
  instanceId : Nat
  current : ServantEnhancements
  target : ServantEnhancements
  requirements : EnhancementRequirements
deriving DecidableEq, Repr

/-- Embeds `PlanRequirements`: the overall result — per-unit entries keyed by
instance id, the target plan's totals, per-preceding-plan totals keyed by plan
id, the whole-group totals, and the (never written) item debt stub. -/
structure PlanRequirements where
  servants : List (Nat × PlanServantRequirements)
  targetPlan : EnhancementRequirements
  previousPlans : List (Nat × EnhancementRequirements)
  group : EnhancementRequirements
  itemDebt : List (Nat × Nat)
deriving DecidableEq, Repr

/-- Embeds `_instantiatePlanRequirements`: empty result. -/
def _instantiatePlanRequirements : PlanRequirements :=
  { servants := []
    targetPlan := _instantiateEnhancementRequirements
    previousPlans := []
    group := _instantiateEnhancementRequirements
    itemDebt := [] }

/-- Modelled from the spec: `InstantiatedServantUtils.updateEnhancements` from
the external `@fgo-planner/data-core` package copies the enhancement fields
(ascension, three skill levels, three append skill levels) of the source onto
the target; the spec describes its use as promoting "the *target* state
recorded so far into the new 'current' baseline". -/
def updateEnhancements (_target source : ServantEnhancements) : ServantEnhancements :=
  { ascension := source.ascension, skills := source.skills, appendSkills := source.appendSkills }

/-- Modelled from the spec: `InstantiatedServantUtils.cloneEnhancements` from
the external `@fgo-planner/data-core` package returns an independent copy of
the enhancement fields of its argument. -/
def cloneEnhancements (source : ServantEnhancements) : ServantEnhancements :=
  { ascension := source.ascension, skills := source.skills, appendSkills := source.appendSkills }

/-- Modelled from the spec: `InstantiatedServantUtils.instantiateEnhancements`
from the external `@fgo-planner/data-core` package creates a fresh
enhancements object; the engine immediately overwrites it with the master
servant's live values. -/
def instantiateEnhancements : ServantEnhancements :=
  {}

/-- Embeds `_instantiatePlanServantRequirements`: current initialized from the
master servant's live values, target cloned from the plan directive, and an
all-zero requirements record. -/
def _instantiatePlanServantRequirements (planServant : PlanServant)
    (masterServant : MasterServant) : PlanServantRequirements :=
  { instanceId := planServant.instanceId
    current := updateEnhancements instantiateEnhancements masterServant.enhancements
    target := cloneEnhancements planServant.enhancements
    requirements := _instantiateEnhancementRequirements }

/-- Embeds `_computePlanServantRequirements`: on the first encounter of an instance
id the per-unit entry is created from the account's live values; on a later
encounter the previously recorded target is promoted into current and the new
plan's target applied; then the incremental cost between current and target is
computed.  Embedded as returning the updated result together with the
(updated) per-unit entry and the computed incremental requirements. -/
def _computePlanServantRequirements (result : PlanRequirements)
    (gameServant : GameServant) (masterServant : MasterServant)
    (planServant : PlanServant) (currentCostumes : List Nat)
    (targetCostumes : Option (List Nat)) (options : ComputationOptions) :
    PlanRequirements × PlanServantRequirements × EnhancementRequirements :=
  let instanceId := planServant.instanceId
  let planServantRequirements :=
    match findAssoc result.servants instanceId with
    | none => _instantiatePlanServantRequirements planServant masterServant
    | some previous =>
      { previous with
          current := updateEnhancements previous.current previous.target
          target := updateEnhancements previous.target planServant.enhancements }
  let result := { result with servants := setAssoc result.servants instanceId planServantRequirements }
  let enhancementRequirements := _computeServantEnhancementRequirements gameServant
    planServantRequirements.current currentCostumes planServantRequirements.target
    targetCostumes options
  (result, planServantRequirements, enhancementRequirements)

/-- The loop body of the private `_computePlanRequirements`: process one plan
servant directive, skipping disabled directives and directives whose unit or
catalog entry cannot be resolved, and accumulate the computed incremental cost
into the per-unit entry (target plan only), the per-plan bucket, and the group
total. -/
def processPlanServantDirective (gameServantMap : List (Nat × GameServant))
    (masterAccountData : MasterAccountData) (planId : Nat)
    (targetCostumes : List Nat) (options : ComputationOptions) (isTargetPlan : Bool)
    (result : PlanRequirements) (planServant : PlanServant) : PlanRequirements :=
  if !planServant.enabled.servant then
    result
  else
    match findAssoc masterAccountData.servants planServant.instanceId with
    | none => result
    | some masterServant =>
      match findAssoc gameServantMap masterServant.gameId with
      | none => result
      | some gameServant =>
        let servantOptions := _parseComputationOptions planServant.enabled.toPlanEnabled
        let mergedOptions := _mergeComputationOptions options servantOptions
        let computation := _computePlanServantRequirements result gameServant masterServant
          planServant masterAccountData.costumes (some targetCostumes) mergedOptions
        let result := computation.1
        let planServantRequirements := computation.2.1
        let enhancementRequirements := computation.2.2
        let result :=
          if isTargetPlan then
            let updated := { planServantRequirements with
              requirements := addEnhancementRequirements planServantRequirements.requirements
                enhancementRequirements }
            let result := { result with
              servants := setAssoc result.servants updated.instanceId updated }
            { result with
              targetPlan := addEnhancementRequirements result.targetPlan enhancementRequirements }
          else
            let bucket := (findAssoc result.previousPlans planId).getD
              _instantiateEnhancementRequirements
            { result with
              previousPlans := setAssoc result.previousPlans planId
                (addEnhancementRequirements bucket enhancementRequirements) }
        { result with group := addEnhancementRequirements result.group enhancementRequirements }

/-- The private `_computePlanRequirements`: materializes the plan's target
costume set and processes every directive of the plan in order. -/
def _computePlanRequirements (result : PlanRequirements)
    (gameServantMap : List (Nat × GameServant)) (masterAccountData : MasterAccountData)
    (plan : Plan) (options : ComputationOptions) (isTargetPlan : Bool) :
    PlanRequirements :=
  plan.servants.foldl
    (processPlanServantDirective gameServantMap masterAccountData plan._id plan.costumes
      options isTargetPlan)
    result

/-- Embeds `computePlanRequirements` (public entry point): pre-processes the account,
derives the computation options from the override or the target plan, runs the
preceding plans in order, then the target plan. -/
def computePlanRequirements (gameServantMap : List (Nat × GameServant))
    (masterAccount : MasterAccount) (targetPlan : Plan)
    (previousPlans : Option (List Plan)) (optionsOverride : Option ComputationOptions) :
    PlanRequirements :=
  let result := _instantiatePlanRequirements
  let masterAccountData := _preProcessMasterAccount masterAccount
  let options :=
    match optionsOverride with
    | some o => o
    | none => _parseComputationOptions targetPlan.enabled
  let result := (previousPlans.getD []).foldl
    (fun r plan => _computePlanRequirements r gameServantMap masterAccountData plan options false)
    result
  _computePlanRequirements result gameServantMap masterAccountData targetPlan options true

/-- Merge of two optional per-item records, as induced by the item loop of
`addEnhancementRequirements`: both absent gives absent, one present gives that
record, both present gives their field-wise sum. -/
def optAdd : Option EnhancementItemRequirements → Option EnhancementItemRequirements →
    Option EnhancementItemRequirements
  | none, none => none
  | some a, none => some a
  | none, some b => some b
  | some a, some b => some (_addEnhancementItemRequirements a b)

/-- The spec's formulation of the per-level upgrade count: the number of the
three slots whose current level is at most `L` and whose target level is above
`L` (a slot with no entry counts as level 0). -/
def specSlotUpgradeCount (currentSkills targetSkills : SkillEnhancements) (L : Nat) : Nat :=
  List.countP (fun ct => decide (ct.1 ≤ L ∧ L < ct.2))
    [(currentSkills.s1.getD 0, targetSkills.s1.getD 0),
     (currentSkills.s2.getD 0, targetSkills.s2.getD 0),
     (currentSkills.s3.getD 0, targetSkills.s3.getD 0)]

/-! Concrete fixtures used by the evaluation parts of the claims.  Their names
describe the scenario they exercise. -/

/-- Ascension cost table entry for level `l`: one unit of item `100 + l` and
`100 * 2 ^ (l - 1)` QP. -/
def ascCost (l : Nat) : GameServantEnhancement :=
  { materials := [(100 + l, 1)], qp := 100 * 2 ^ (l - 1) }

/-- Catalog unit with only an ascension cost table (levels 1..4). -/
def gsAscension : GameServant :=
  { skillMaterials := []
    appendSkillMaterials := []
    ascensionMaterials := some [(1, ascCost 1), (2, ascCost 2), (3, ascCost 3), (4, ascCost 4)]
    costumes := [] }

/-- All flags enabled. -/
def allOn : PlanServantEnabled :=
  { servant := true, ascensions := true, skills := true, appendSkills := true, costumes := true }

/-- Owned unit, instance id 7, catalog id 1, live ascension 0. -/
def servant7 : MasterServant :=
  { instanceId := 7, gameId := 1, ascension := some 0 }

/-- Plan directive: instance 7, target ascension 2. -/
def directiveAsc2 : PlanServant :=
  { instanceId := 7, enabled := allOn, ascension := some 2 }

/-- Plan directive: instance 7, target ascension 4. -/
def directiveAsc4 : PlanServant :=
  { instanceId := 7, enabled := allOn, ascension := some 4 }

/-- Plan A of the ascension chain: targets ascension 2. -/
def planAscA : Plan :=
  { _id := 11, enabled := allOn.toPlanEnabled, servants := [directiveAsc2], costumes := [] }

/-- Plan B of the ascension chain: targets ascension 4. -/
def planAscB : Plan :=
  { _id := 12, enabled := allOn.toPlanEnabled, servants := [directiveAsc4], costumes := [] }

/-- Account owning servant 7 and nothing else. -/
def acctAsc : MasterAccount :=
  { servants := [servant7], resources := { items := [], qp := 0 }, costumes := [] }

/-- Plan directive with the unit-level ascensions flag disabled but a target
ascension above the live level. -/
def directiveAscOff : PlanServant :=
  { instanceId := 7, enabled := { allOn with ascensions := false }, ascension := some 2 }

/-- Plan whose only directive disables ascensions at the unit level while the
plan level enables them. -/
def planAscOff : Plan :=
  { _id := 13, enabled := allOn.toPlanEnabled, servants := [directiveAscOff], costumes := [] }

/-- Costume 501's one-time cost: one unit of item 900 and 5 QP. -/
def costumeCost : GameServantCostume :=
  { materials := { materials := [(900, 1)], qp := 5 } }

/-- Catalog unit with only costume 501. -/
def gsCostume : GameServant :=
  { skillMaterials := []
    appendSkillMaterials := []
    ascensionMaterials := none
    costumes := [(501, costumeCost)] }

/-- Plan directive for instance 7 with no enhancement targets. -/
def directivePlain : PlanServant :=
  { instanceId := 7, enabled := allOn }

/-- First plan targeting costume 501. -/
def planCosA : Plan :=
  { _id := 21, enabled := allOn.toPlanEnabled, servants := [directivePlain], costumes := [501] }

/-- Second plan targeting costume 501 again. -/
def planCosB : Plan :=
  { _id := 22, enabled := allOn.toPlanEnabled, servants := [directivePlain], costumes := [501] }

/-- Catalog unit whose skill table has only the lore (level 9) entry: two
units of item 700 and 7 QP. -/
def gsLore : GameServant :=
  { skillMaterials := [(9, { materials := [(700, 2)], qp := 7 })]
    appendSkillMaterials := []
    ascensionMaterials := none
    costumes := [] }

/-- Owned unit with first skill at level 9, the others at 1. -/
def servantLore : MasterServant :=
  { instanceId := 7, gameId := 3, ascension := some 0
    skills := { s1 := some 9, s2 := some 1, s3 := some 1 } }

/-- Account owning `servantLore`. -/
def acctLore : MasterAccount :=
  { servants := [servantLore], resources := { items := [], qp := 0 }, costumes := [] }

/-- Plan directive raising the first skill to 10, holding the others at 1. -/
def directiveLore : PlanServant :=
  { instanceId := 7, enabled := allOn
    skills := { s1 := some 10, s2 := some 1, s3 := some 1 } }

/-- Plan for the lore scenario. -/
def planLore : Plan :=
  { _id := 31, enabled := allOn.toPlanEnabled, servants := [directiveLore], costumes := [] }

/-- Options with everything included and `excludeLores` set. -/
def optionsLore : ComputationOptions :=
  { _defaultOptions with excludeLores := some true }

/-- A per-unit result entry from an earlier plan of a chain: live ascension 0
was the baseline, ascension 2 the recorded target. -/
def psrPrev : PlanServantRequirements :=
  { instanceId := 7
    current := { ascension := some 0 }
    target := { ascension := some 2 }
    requirements := _instantiateEnhancementRequirements }

/-- A running result containing `psrPrev` under instance id 7. -/
def resultPrev : PlanRequirements :=
  { servants := [(7, psrPrev)]
    targetPlan := _instantiateEnhancementRequirements
    previousPlans := []
    group := _instantiateEnhancementRequirements
    itemDebt := [] }

/-- Sample requirement record A for the aggregation witness. -/
def reqSampleA : EnhancementRequirements :=
  { embers := { r1 := 1, r2 := 0, r3 := 0, r4 := 2, r5 := 0 }
    items := [(5, { ascensions := 1, skills := 2, appendSkills := 0, costumes := 0, total := 3 })]
    qp := 10 }

/-- Sample requirement record B for the aggregation witness. -/
def reqSampleB : EnhancementRequirements :=
  { embers := { r1 := 0, r2 := 3, r3 := 0, r4 := 0, r5 := 1 }
    items := [(5, { ascensions := 0, skills := 1, appendSkills := 4, costumes := 0, total := 5 }),
              (6, { ascensions := 0, skills := 0, appendSkills := 0, costumes := 2, total := 2 })]
    qp := 20 }

/-- Sample requirement record C for the aggregation witness. -/
def reqSampleC : EnhancementRequirements :=
  { embers := { r1 := 0, r2 := 0, r3 := 5, r4 := 0, r5 := 0 }
    items := [(6, { ascensions := 2, skills := 0, appendSkills := 0, costumes := 0, total := 2 })]
    qp := 30 }

theorem findAssoc_cons {α : Type} (e : Nat × α) (l : List (Nat × α)) (k : Nat) :
    findAssoc (e :: l) k = if e.1 = k then some e.2 else findAssoc l k := by
  by_cases h : e.1 = k <;> simp [findAssoc, List.find?_cons, h]

theorem findAssoc_isSome_eq_any {α : Type} (l : List (Nat × α)) (k : Nat) :
    (findAssoc l k).isSome = l.any (fun e => e.1 == k) := by
  induction l with
  | nil => rfl
  | cons e t ih =>
    rw [findAssoc_cons]
    by_cases h : e.1 = k <;> simp [h, ih]

theorem findAssoc_eq_none_iff {α : Type} (l : List (Nat × α)) (k : Nat) :
    findAssoc l k = none ↔ k ∉ assocKeys l := by
  induction l with
  | nil => simp [findAssoc, assocKeys]
  | cons e t ih =>
    rw [findAssoc_cons]
    by_cases h : e.1 = k <;> simp [h, ih, assocKeys] <;> tauto

theorem findAssoc_mapUpdate (acc : List (Nat × EnhancementItemRequirements)) (k : Nat)
    (v : EnhancementItemRequirements) (id : Nat) :
    findAssoc (acc.map (fun e => if e.1 == k then (e.1, _addEnhancementItemRequirements e.2 v) else e)) id =
      if id = k then (findAssoc acc k).map (fun w => _addEnhancementItemRequirements w v)
      else findAssoc acc id := by
  induction acc with
  | nil => by_cases h : id = k <;> simp [findAssoc, h]
  | cons e t ih =>
    by_cases hid : id = k
    · subst hid
      by_cases hek : e.1 = id
      · simp [List.map_cons, findAssoc_cons, hek]
      · simp only [List.map_cons, findAssoc_cons, hek, if_true, if_false, ite_true, ite_false,
          beq_iff_eq, if_neg hek] at ih ⊢
        simpa [hek] using ih
    · by_cases hek : e.1 = k
      · have he_id : ¬ e.1 = id := fun h => hid (by rw [← h, hek])
        simp only [List.map_cons, findAssoc_cons, beq_iff_eq, if_pos hek] at ih ⊢
        simp only [if_neg hid] at ih
        simp [findAssoc_cons, he_id, hid, ih]
      · have hne : (e.1 == k) = false := by simp [hek]
        simp only [List.map_cons, beq_iff_eq, if_neg hek] at ih ⊢
        simp only [if_neg hid] at ih
        by_cases he_id : e.1 = id
        · simp [findAssoc_cons, he_id, hid]
        · simp [findAssoc_cons, he_id, hid, ih]

theorem findAssoc_append_single {α : Type} (acc : List (Nat × α)) (k : Nat) (v : α) (id : Nat) :
    findAssoc (acc ++ [(k, v)]) id =
      match findAssoc acc id with
      | some w => some w
      | none => if k = id then some v else none := by
  induction acc with
  | nil =>
    show findAssoc [(k, v)] id = _
    rw [findAssoc_cons]
    by_cases h : k = id <;> simp [findAssoc, h]
  | cons e t ih =>
    rw [List.cons_append, findAssoc_cons, findAssoc_cons]
    by_cases h : e.1 = id
    · rw [if_pos h, if_pos h]
    · rw [if_neg h, if_neg h, ih]

theorem findAssoc_addItemsStep_self (acc : List (Nat × EnhancementItemRequirements))
    (kv : Nat × EnhancementItemRequirements) :
    findAssoc (addItemsStep acc kv) kv.1 = optAdd (findAssoc acc kv.1) (some kv.2) := by
  unfold addItemsStep
  by_cases hmem : acc.any (fun e => e.1 == kv.1) = true
  · rw [if_pos hmem, findAssoc_mapUpdate, if_pos rfl]
    have hsome : (findAssoc acc kv.1).isSome = true := by
      rw [findAssoc_isSome_eq_any]; exact hmem
    obtain ⟨w, hw⟩ := Option.isSome_iff_exists.mp hsome
    rw [hw]; rfl
  · rw [if_neg hmem, findAssoc_append_single]
    have hnone : findAssoc acc kv.1 = none := by
      cases hfind : findAssoc acc kv.1 with
      | none => rfl
      | some w =>
        exfalso
        apply hmem
        rw [← findAssoc_isSome_eq_any, hfind]
        rfl
    rw [hnone]
    simp [optAdd]

theorem findAssoc_addItemsStep_other (acc : List (Nat × EnhancementItemRequirements))
    (kv : Nat × EnhancementItemRequirements) (id : Nat) (hid : id ≠ kv.1) :
    findAssoc (addItemsStep acc kv) id = findAssoc acc id := by
  unfold addItemsStep
  by_cases hmem : acc.any (fun e => e.1 == kv.1) = true
  · rw [if_pos hmem, findAssoc_mapUpdate, if_neg hid]
  · rw [if_neg hmem, findAssoc_append_single]
    cases hfind : findAssoc acc id with
    | none =>
      have : ¬ kv.1 = id := fun h => hid h.symm
      simp [this]
    | some w => rfl

theorem optAdd_none_right (a : Option EnhancementItemRequirements) : optAdd a none = a := by
  cases a <;> rfl

theorem optAdd_none_left (a : Option EnhancementItemRequirements) : optAdd none a = a := by
  cases a <;> rfl

theorem findAssoc_addItems (source : List (Nat × EnhancementItemRequirements)) :
    ∀ (acc : List (Nat × EnhancementItemRequirements)),
      (assocKeys source).Nodup →
      ∀ id, findAssoc (addItems acc source) id =
        optAdd (findAssoc acc id) (findAssoc source id) := by
  induction source with
  | nil =>
    intro acc _ id
    simp [addItems, findAssoc, optAdd_none_right]
  | cons kv rest ih =>
    intro acc hnd id
    have hkeys : assocKeys (kv :: rest) = kv.1 :: assocKeys rest := rfl
    rw [hkeys] at hnd
    have hrest : (assocKeys rest).Nodup := hnd.of_cons
    have hk : kv.1 ∉ assocKeys rest := (List.nodup_cons.mp hnd).1
    have hstep : addItems acc (kv :: rest) = addItems (addItemsStep acc kv) rest := rfl
    rw [hstep, ih (addItemsStep acc kv) hrest id, findAssoc_cons]
    by_cases hid : id = kv.1
    · rw [hid]
      have hnone : findAssoc rest kv.1 = none := (findAssoc_eq_none_iff rest kv.1).mpr hk
      rw [hnone, optAdd_none_right, findAssoc_addItemsStep_self, if_pos rfl]
    · rw [findAssoc_addItemsStep_other acc kv id hid, if_neg (fun h => hid h.symm)]

theorem _addEnhancementItemRequirements_comm (a b : EnhancementItemRequirements) :
    _addEnhancementItemRequirements a b = _addEnhancementItemRequirements b a := by
  simp [_addEnhancementItemRequirements, EnhancementItemRequirements.mk.injEq]
  omega

theorem optAdd_comm (a b : Option EnhancementItemRequirements) :
    optAdd a b = optAdd b a := by
  cases a <;> cases b <;> simp [optAdd, _addEnhancementItemRequirements_comm]

/-- C3: requirement records with `addEnhancementRequirements` form a
commutative monoid: for records whose item maps have no duplicate keys (as is
the case for every record produced by the engine, since JavaScript object keys
are unique), `add(A,B)` equals `add(B,A)` field-by-field; `add` is associative
so `sum([A,B,C])` equals `add(add(A,B),C)` field-by-field;
`sumEnhancementRequirements([])` returns the all-zero identity record; and
`add(X, zero)` leaves `X` equal to `X`. -/
theorem C3_requirement_records_commutative_monoid
    (A B C X : EnhancementRequirements)
    (hA : (assocKeys A.items).Nodup) (hB : (assocKeys B.items).Nodup)
    (hC : (assocKeys C.items).Nodup) :
    fieldEq (addEnhancementRequirements A B) (addEnhancementRequirements B A) ∧
    fieldEq (sumEnhancementRequirements [A, B, C])
      (addEnhancementRequirements (addEnhancementRequirements A B) C) ∧
    sumEnhancementRequirements [] = _instantiateEnhancementRequirements ∧
    addEnhancementRequirements X _instantiateEnhancementRequirements = X := by
  refine ⟨⟨?_, ?_, ?_⟩, ⟨?_, ?_, ?_⟩, rfl, ?_⟩
  · simp [addEnhancementRequirements, addEmbers, Embers.mk.injEq]
    omega
  · simp [addEnhancementRequirements]
    omega
  · intro id
    show findAssoc (addItems A.items B.items) id = findAssoc (addItems B.items A.items) id
    rw [findAssoc_addItems B.items A.items hB id, findAssoc_addItems A.items B.items hA id,
      optAdd_comm]
  · simp [sumEnhancementRequirements, addEnhancementRequirements, addEmbers,
      _instantiateEnhancementRequirements, Embers.mk.injEq]
  · simp [sumEnhancementRequirements, addEnhancementRequirements,
      _instantiateEnhancementRequirements]
  · intro id
    show findAssoc (addItems (addItems (addItems _instantiateEnhancementRequirements.items
        A.items) B.items) C.items) id =
      findAssoc (addItems (addItems A.items B.items) C.items) id
    rw [findAssoc_addItems C.items _ hC id, findAssoc_addItems C.items _ hC id,
      findAssoc_addItems B.items _ hB id, findAssoc_addItems B.items _ hB id,
      findAssoc_addItems A.items _ hA id]
    rw [show findAssoc _instantiateEnhancementRequirements.items id = none from rfl,
      optAdd_none_left]
  · obtain ⟨⟨r1, r2, r3, r4, r5⟩, items, qp⟩ := X
    simp [addEnhancementRequirements, addEmbers, addItems, _instantiateEnhancementRequirements]

/-- Witness for C3 at the concrete sample records: the no-duplicate-key
hypotheses hold and the monoid laws follow. -/
theorem C3_requirement_records_commutative_monoid_witness :
    ((assocKeys reqSampleA.items).Nodup ∧ (assocKeys reqSampleB.items).Nodup ∧
      (assocKeys reqSampleC.items).Nodup) ∧
    (fieldEq (addEnhancementRequirements reqSampleA reqSampleB)
        (addEnhancementRequirements reqSampleB reqSampleA) ∧
      fieldEq (sumEnhancementRequirements [reqSampleA, reqSampleB, reqSampleC])
        (addEnhancementRequirements (addEnhancementRequirements reqSampleA reqSampleB) reqSampleC) ∧
      sumEnhancementRequirements [] = _instantiateEnhancementRequirements ∧
      addEnhancementRequirements reqSampleA _instantiateEnhancementRequirements = reqSampleA) :=
  ⟨⟨by decide, by decide, by decide⟩,
    C3_requirement_records_commutative_monoid reqSampleA reqSampleB reqSampleC reqSampleA
      (by decide) (by decide) (by decide)⟩

/-- C4: for every catalog skill (or append-skill) level `L`, the per-level
upgrade count of `_updateResultForSkills` equals the number of the three slots
whose current level is at most `L` and whose target level is above `L` (a slot
with no entry is treated as level 0); the catalog's material quantity and QP
for that level are multiplied by this count and added to the `skills` or
`appendSkills` subtotal; and for current levels (3,5,7) and targets
(10,10,10) the count at level 6 is 2. -/
theorem C4_skill_upgrade_counting (cs ts : SkillEnhancements) (L m q qp0 : Nat) :
    skillUpgradeCount cs ts L = specSlotUpgradeCount cs ts L ∧
    (_updateResultForSkills _instantiateEnhancementRequirements
        [(L, { materials := [(m, q)], qp := qp0 })] cs ts .skills none).qp =
      qp0 * skillUpgradeCount cs ts L ∧
    findAssoc (_updateResultForSkills _instantiateEnhancementRequirements
        [(L, { materials := [(m, q)], qp := qp0 })] cs ts .skills none).items m =
      (if skillUpgradeCount cs ts L = 0 then none
       else some { ascensions := 0, skills := q * skillUpgradeCount cs ts L, appendSkills := 0,
                   costumes := 0, total := q * skillUpgradeCount cs ts L }) ∧
    findAssoc (_updateResultForSkills _instantiateEnhancementRequirements
        [(L, { materials := [(m, q)], qp := qp0 })] cs ts .appendSkills none).items m =
      (if skillUpgradeCount cs ts L = 0 then none
       else some { ascensions := 0, skills := 0, appendSkills := q * skillUpgradeCount cs ts L,
                   costumes := 0, total := q * skillUpgradeCount cs ts L }) ∧
    skillUpgradeCount { s1 := some 3, s2 := some 5, s3 := some 7 }
      { s1 := some 10, s2 := some 10, s3 := some 10 } 6 = 2 := by
  refine ⟨?_, ?_, ?_, ?_, by decide⟩
  · simp only [skillUpgradeCount, specSlotUpgradeCount, List.countP_cons, List.countP_nil,
      decide_eq_true_eq]
    split_ifs <;> omega
  · by_cases hc : skillUpgradeCount cs ts L = 0 <;>
      simp [hc, _updateResultForSkills, truthy, _updateEnhancementRequirementResult,
        _instantiateEnhancementRequirements]
  · by_cases hc : skillUpgradeCount cs ts L = 0 <;>
      simp [hc, _updateResultForSkills, truthy, _updateEnhancementRequirementResult,
        _instantiateEnhancementRequirements, _instantiateEnhancementItemRequirements,
        setAssoc, findAssoc, addToCategory]
  · by_cases hc : skillUpgradeCount cs ts L = 0 <;>
      simp [hc, _updateResultForSkills, truthy, _updateEnhancementRequirementResult,
        _instantiateEnhancementRequirements, _instantiateEnhancementItemRequirements,
        setAssoc, findAssoc, addToCategory]

/-- C1: chain baseline promotion — on the first encounter of an instance id
the per-unit current state is initialized from the account snapshot's live
value, on every later encounter the previously recorded target is promoted
into current before the new plan's target is applied; concretely, for live
ascension 0 with plan A targeting ascension 2 and plan B targeting ascension
4, plan B's incremental cost covers ascension levels 3 and 4 only (items 103
and 104 of the fixture catalog) while plan A's bucket covers levels 1 and 2. -/
theorem C1_chain_baseline_promotion :
    (∀ (result : PlanRequirements) (gs : GameServant) (ms : MasterServant) (ps : PlanServant)
        (cc : List Nat) (tc : Option (List Nat)) (opts : ComputationOptions)
        (previous : PlanServantRequirements),
      findAssoc result.servants ps.instanceId = some previous →
        (_computePlanServantRequirements result gs ms ps cc tc opts).2.1.current =
            previous.target ∧
          (_computePlanServantRequirements result gs ms ps cc tc opts).2.1.target =
            ps.enhancements) ∧
    (∀ (result : PlanRequirements) (gs : GameServant) (ms : MasterServant) (ps : PlanServant)
        (cc : List Nat) (tc : Option (List Nat)) (opts : ComputationOptions),
      findAssoc result.servants ps.instanceId = none →
        (_computePlanServantRequirements result gs ms ps cc tc opts).2.1.current =
            ms.enhancements ∧
          (_computePlanServantRequirements result gs ms ps cc tc opts).2.1.target =
            ps.enhancements) ∧
    ((computePlanRequirements [(1, gsAscension)] acctAsc planAscB (some [planAscA])
        none).targetPlan =
      { embers := { r1 := 0, r2 := 0, r3 := 0, r4 := 0, r5 := 0 }
        items := [(103, { ascensions := 1, skills := 0, appendSkills := 0, costumes := 0,
                          total := 1 }),
                  (104, { ascensions := 1, skills := 0, appendSkills := 0, costumes := 0,
                          total := 1 })]
        qp := 1200 } ∧
      (computePlanRequirements [(1, gsAscension)] acctAsc planAscB (some [planAscA])
          none).previousPlans =
        [(11, { embers := { r1 := 0, r2 := 0, r3 := 0, r4 := 0, r5 := 0 }
                items := [(101, { ascensions := 1, skills := 0, appendSkills := 0, costumes := 0,
                                  total := 1 }),
                          (102, { ascensions := 1, skills := 0, appendSkills := 0, costumes := 0,
                                  total := 1 })]
                qp := 300 })]) := by
  refine ⟨?_, ?_, by decide, by decide⟩
  · intro result gs ms ps cc tc opts previous h
    constructor <;> simp [_computePlanServantRequirements, h, updateEnhancements]
  · intro result gs ms ps cc tc opts h
    constructor <;>
      simp [_computePlanServantRequirements, h, _instantiatePlanServantRequirements,
        updateEnhancements, cloneEnhancements]

/-- Witness for C1 at a concrete previously-encountered entry: the lookup
hypothesis holds and the promotion equations follow. -/
theorem C1_chain_baseline_promotion_witness :
    findAssoc resultPrev.servants directiveAsc4.instanceId = some psrPrev ∧
    ((_computePlanServantRequirements resultPrev gsAscension servant7 directiveAsc4 [] none
        _defaultOptions).2.1.current = psrPrev.target ∧
      (_computePlanServantRequirements resultPrev gsAscension servant7 directiveAsc4 [] none
          _defaultOptions).2.1.target = directiveAsc4.enhancements) :=
  ⟨by decide,
    C1_chain_baseline_promotion.1 resultPrev gsAscension servant7 directiveAsc4 [] none
      _defaultOptions psrPrev (by decide)⟩

/-- C2 evaluation at the failing input: `_mergeComputationOptions` computes
its `includeAscensions` field from the plan-level options alone (the source
reads `a.includeAscensions && a.includeAscensions`), so a unit-level
`ascensions: false` flag is ignored — merging all-true plan options with
unit options that disable ascensions still yields `includeAscensions = true`,
and the fixture plan whose only directive disables ascensions at the unit
level (live ascension 0, target 2) still accrues the full ascension cost of
300 QP instead of the 0 the claim requires; the other axes do combine by
AND. -/
theorem C2_unit_level_ascensions_flag_ignored :
    (_mergeComputationOptions _defaultOptions
        { _defaultOptions with includeAscensions := some false }).includeAscensions = some true ∧
    (_mergeComputationOptions _defaultOptions
        { _defaultOptions with includeSkills := some false }).includeSkills = some false ∧
    (_mergeComputationOptions _defaultOptions
        { _defaultOptions with includeCostumes := some false }).includeCostumes = some false ∧
    (computePlanRequirements [(1, gsAscension)] acctAsc planAscOff none none).targetPlan.qp =
      300 ∧
    (computePlanRequirements [(1, gsAscension)] acctAsc planAscOff none none).targetPlan.qp ≠
      0 := by
  refine ⟨rfl, rfl, rfl, by decide, by decide⟩

/-- C5: a catalog costume's one-time cost is recorded if and only if the
costume is not already in the current costume set and either no target costume
set is given (all costumes targeted) or the costume id is in the target set;
in particular an already-owned costume contributes nothing regardless of the
target set. -/
theorem C5_costume_contribution_condition
    (result : EnhancementRequirements) (costumeId : Nat) (costume : GameServantCostume)
    (cc : List Nat) (tc : Option (List Nat)) :
    (costumeId ∉ cc ∧ (tc = none ∨ ∃ ts, tc = some ts ∧ costumeId ∈ ts) →
      updateResultForCostumes result [(costumeId, costume)] cc tc =
        _updateEnhancementRequirementResult result costume.materials .costumes 1) ∧
    (costumeId ∈ cc ∨ (∃ ts, tc = some ts ∧ costumeId ∉ ts) →
      updateResultForCostumes result [(costumeId, costume)] cc tc = result) := by
  constructor
  · rintro ⟨hcc, htc⟩
    rcases htc with hnone | ⟨ts, hts, hmem⟩
    · subst hnone
      simp only [updateResultForCostumes, List.foldl]
      rw [if_neg]
      simp only [List.elem_iff, Bool.or_eq_true, Bool.false_eq_true, or_false]
      exact hcc
    · subst hts
      have hts2 : ts.contains costumeId = true := by
        simp [List.elem_iff]; exact hmem
      simp only [updateResultForCostumes, List.foldl]
      rw [if_neg]
      simp only [List.elem_iff, Bool.or_eq_true, Bool.not_eq_true', not_or, decide_eq_false_iff_not,
        Decidable.not_not]
      exact ⟨hcc, fun h => by rw [hts2] at h; exact Bool.noConfusion h⟩
  · rintro (hcc | ⟨ts, hts, hmem⟩)
    · simp only [updateResultForCostumes, List.foldl]
      rw [if_pos]
      simp only [List.elem_iff, Bool.or_eq_true]
      exact Or.inl hcc
    · subst hts
      have hts2 : ts.contains costumeId = false := by
        simp [List.elem_iff]; exact hmem
      simp only [updateResultForCostumes, List.foldl]
      rw [if_pos]
      simp only [List.elem_iff, Bool.or_eq_true, Bool.not_eq_true', decide_eq_false_iff_not]
      exact Or.inr hts2

/-- Witness for C5: at costume id 501 with an empty current costume set and
target set containing 501 the cost is recorded, and with the costume already
owned the result is unchanged even though 501 is in the target set. -/
theorem C5_costume_contribution_condition_witness :
    ((501 ∉ ([] : List Nat) ∧ ((some [501] : Option (List Nat)) = none ∨
        ∃ ts, (some [501] : Option (List Nat)) = some ts ∧ 501 ∈ ts)) ∧
      updateResultForCostumes _instantiateEnhancementRequirements [(501, costumeCost)] []
          (some [501]) =
        _updateEnhancementRequirementResult _instantiateEnhancementRequirements
          costumeCost.materials .costumes 1) ∧
    ((501 ∈ [501] ∨ ∃ ts, (some [501] : Option (List Nat)) = some ts ∧ 501 ∉ ts) ∧
      updateResultForCostumes _instantiateEnhancementRequirements [(501, costumeCost)] [501]
          (some [501]) =
        _instantiateEnhancementRequirements) :=
  ⟨⟨⟨by decide, Or.inr ⟨[501], rfl, by decide⟩⟩,
      (C5_costume_contribution_condition _instantiateEnhancementRequirements 501 costumeCost []
          (some [501])).1 ⟨by decide, Or.inr ⟨[501], rfl, by decide⟩⟩⟩,
    ⟨Or.inl (by decide),
      (C5_costume_contribution_condition _instantiateEnhancementRequirements 501 costumeCost
          [501] (some [501])).2 (Or.inl (by decide))⟩⟩

/-- C6 counterexample: costume 501 (cost 5 QP) is targeted by both plans of a
two-plan chain; the whole-group total counts it twice (10 QP), not once (5 QP)
as the claim requires — the unlocked-costume set used for the skip check is
taken from the account and never updated during the walk. -/
theorem C6_costume_double_count_counterexample :
    (computePlanRequirements [(1, gsCostume)] acctAsc planCosB (some [planCosA])
        none).group.qp = 10 ∧
    (computePlanRequirements [(1, gsCostume)] acctAsc planCosB (some [planCosA])
        none).group.qp ≠ 5 :=
  ⟨by decide, by decide⟩

/-- C6 amended: incremental costs of the promoted enhancement axes are
deduplicated across the chain — the two-plan ascension chain's group total
counts each ascension level exactly once (items 101..104 once each, 1500 QP in
total) — but a one-time costume cost targeted by two plans of the chain
contributes once per targeting plan (item 900 twice, 10 QP). -/
theorem C6_deduplication_amended :
    (computePlanRequirements [(1, gsAscension)] acctAsc planAscB (some [planAscA])
        none).group =
      { embers := { r1 := 0, r2 := 0, r3 := 0, r4 := 0, r5 := 0 }
        items := [(101, { ascensions := 1, skills := 0, appendSkills := 0, costumes := 0,
                          total := 1 }),
                  (102, { ascensions := 1, skills := 0, appendSkills := 0, costumes := 0,
                          total := 1 }),
                  (103, { ascensions := 1, skills := 0, appendSkills := 0, costumes := 0,
                          total := 1 }),
                  (104, { ascensions := 1, skills := 0, appendSkills := 0, costumes := 0,
                          total := 1 })]
        qp := 1500 } ∧
    (computePlanRequirements [(1, gsCostume)] acctAsc planCosB (some [planCosA])
        none).group =
      { embers := { r1 := 0, r2 := 0, r3 := 0, r4 := 0, r5 := 0 }
        items := [(900, { ascensions := 0, skills := 0, appendSkills := 0, costumes := 2,
                          total := 2 })]
        qp := 10 } :=
  ⟨by decide, by decide⟩

theorem updateResultForSkills_excludeLores_filter
    (mats : List (Nat × GameServantEnhancement)) :
    ∀ (result : EnhancementRequirements) (cs ts : SkillEnhancements)
      (cat : EnhancementCategory),
      _updateResultForSkills result mats cs ts cat (some true) =
        _updateResultForSkills result (mats.filter (fun e => e.1 != MaxSkillLevel - 1)) cs ts cat
          (some true) := by
  induction mats with
  | nil => intro result cs ts cat; rfl
  | cons e rest ih =>
    intro result cs ts cat
    by_cases h : e.1 = MaxSkillLevel - 1
    · have hf : (e.1 != MaxSkillLevel - 1) = false := by simp [h]
      have hfilter : List.filter (fun x => x.1 != MaxSkillLevel - 1) (e :: rest) =
          List.filter (fun x => x.1 != MaxSkillLevel - 1) rest := by
        rw [List.filter_cons, hf]
        simp
      rw [show (e :: rest).filter (fun x => x.1 != MaxSkillLevel - 1) =
          rest.filter (fun x => x.1 != MaxSkillLevel - 1) from hfilter]
      have hstep : _updateResultForSkills result (e :: rest) cs ts cat (some true) =
          _updateResultForSkills result rest cs ts cat (some true) := by
        simp only [_updateResultForSkills, List.foldl_cons]
        rw [if_pos ⟨rfl, h⟩]
      rw [hstep]
      exact ih result cs ts cat
    · have hf : (e.1 != MaxSkillLevel - 1) = true := by simp [h]
      have hfilter : List.filter (fun x => x.1 != MaxSkillLevel - 1) (e :: rest) =
          e :: List.filter (fun x => x.1 != MaxSkillLevel - 1) rest := by
        rw [List.filter_cons, hf]
        simp
      rw [show (e :: rest).filter (fun x => x.1 != MaxSkillLevel - 1) =
          e :: rest.filter (fun x => x.1 != MaxSkillLevel - 1) from hfilter]
      simp only [_updateResultForSkills, List.foldl_cons]
      rw [if_neg (fun hx => h hx.2)]
      exact ih _ cs ts cat

theorem updateResultForSkills_truthy_congr
    (mats : List (Nat × GameServantEnhancement)) :
    ∀ (result : EnhancementRequirements) (cs ts : SkillEnhancements)
      (cat : EnhancementCategory) (o o' : Option Bool),
      truthy o = truthy o' →
      _updateResultForSkills result mats cs ts cat o =
        _updateResultForSkills result mats cs ts cat o' := by
  induction mats with
  | nil => intro result cs ts cat o o' _; rfl
  | cons e rest ih =>
    intro result cs ts cat o o' ho
    simp only [_updateResultForSkills, List.foldl_cons]
    by_cases hsk : truthy o' = true ∧ e.1 = MaxSkillLevel - 1
    · rw [if_pos ⟨ho.trans hsk.1, hsk.2⟩, if_pos hsk]
      exact ih result cs ts cat o o' ho
    · rw [if_neg (fun hx => hsk ⟨ho.symm.trans hx.1, hx.2⟩), if_neg hsk]
      exact ih _ cs ts cat o o' ho

/-- C7 counterexample: `excludeLores` supplied via `optionsOverride` to
`computePlanRequirements` is nullified — the fixture's lore step (skill level
9, 7 QP) is still included (target-plan QP is 7, not the 0 the claim
requires), because the merge computes
`excludeLores && servantOptions.excludeLores` and per-servant options never
define `excludeLores`. -/
theorem C7_excludeLores_override_counterexample :
    (computePlanRequirements [(3, gsLore)] acctLore planLore none
        (some optionsLore)).targetPlan.qp = 7 ∧
    (computePlanRequirements [(3, gsLore)] acctLore planLore none
        (some optionsLore)).targetPlan.qp ≠ 0 :=
  ⟨by decide, by decide⟩

/-- C7 amended: `excludeLores` is honored by options that reach the per-unit
calculator directly — with `excludeLores` set, `_updateResultForSkills`
behaves as if every `MaxSkillLevel - 1` entry were removed from the catalog
table, and an absent flag behaves as `false` (the lore step included); but the
AND-merge of any options with parsed per-servant options (which never define
`excludeLores`) always yields a falsy `excludeLores`, so an
`optionsOverride.excludeLores` passed to `computePlanRequirements` is
nullified and the lore step is included there (7 QP in the fixture), while the
direct single-servant entry point honors it (0 QP, against 21 QP when the flag
is absent). -/
theorem C7_excludeLores_amended :
    (∀ (result : EnhancementRequirements) (mats : List (Nat × GameServantEnhancement))
        (cs ts : SkillEnhancements) (cat : EnhancementCategory),
      _updateResultForSkills result mats cs ts cat (some true) =
        _updateResultForSkills result (mats.filter (fun e => e.1 != MaxSkillLevel - 1)) cs ts
          cat (some true)) ∧
    (∀ (result : EnhancementRequirements) (mats : List (Nat × GameServantEnhancement))
        (cs ts : SkillEnhancements) (cat : EnhancementCategory),
      _updateResultForSkills result mats cs ts cat none =
        _updateResultForSkills result mats cs ts cat (some false)) ∧
    (∀ (a : ComputationOptions) (e : PlanEnabled),
      truthy (_mergeComputationOptions a (_parseComputationOptions e)).excludeLores = false) ∧
    (computeServantEnhancementRequirements gsLore servantLore.enhancements []
        (some optionsLore)).qp = 0 ∧
    (computeServantEnhancementRequirements gsLore servantLore.enhancements [] none).qp = 21 ∧
    (computePlanRequirements [(3, gsLore)] acctLore planLore none
        (some optionsLore)).targetPlan.qp = 7 := by
  refine ⟨?_, ?_, ?_, by decide, by decide, by decide⟩
  · intro result mats cs ts cat
    exact updateResultForSkills_excludeLores_filter mats result cs ts cat
  · intro result mats cs ts cat
    exact updateResultForSkills_truthy_congr mats result cs ts cat none (some false) rfl
  · intro a e
    rcases ha : a.excludeLores with - | b
    · simp [_mergeComputationOptions, _parseComputationOptions, jsAnd, truthy, ha]
    · cases b <;>
        simp [_mergeComputationOptions, _parseComputationOptions, jsAnd, truthy, ha]

/-- C8: graceful degradation on missing reference data — a directive whose
instance id is absent from the pre-processed account is skipped leaving the
result unchanged, a directive whose catalog unit is absent from the catalog
map is skipped leaving the result unchanged, and a catalog unit with an empty
skill table, empty append table, no ascension table and no costumes yields the
all-zero requirement record for any current/target states and options. -/
theorem C8_graceful_degradation :
    (∀ (g : List (Nat × GameServant)) (acctData : MasterAccountData) (planId : Nat)
        (tcs : List Nat) (opts : ComputationOptions) (itp : Bool)
        (result : PlanRequirements) (ps : PlanServant),
      findAssoc acctData.servants ps.instanceId = none →
        processPlanServantDirective g acctData planId tcs opts itp result ps = result) ∧
    (∀ (g : List (Nat × GameServant)) (acctData : MasterAccountData) (planId : Nat)
        (tcs : List Nat) (opts : ComputationOptions) (itp : Bool)
        (result : PlanRequirements) (ps : PlanServant) (ms : MasterServant),
      findAssoc acctData.servants ps.instanceId = some ms →
        findAssoc g ms.gameId = none →
        processPlanServantDirective g acctData planId tcs opts itp result ps = result) ∧
    (∀ (cur : ServantEnhancements) (cc : List Nat) (tgt : ServantEnhancements)
        (tc : Option (List Nat)) (opts : ComputationOptions),
      _computeServantEnhancementRequirements
          { skillMaterials := [], appendSkillMaterials := [], ascensionMaterials := none,
            costumes := [] } cur cc tgt tc opts =
        _instantiateEnhancementRequirements) := by
  refine ⟨?_, ?_, ?_⟩
  · intro g acctData planId tcs opts itp result ps h
    by_cases he : ps.enabled.servant
    · simp [processPlanServantDirective, he, h]
    · simp [processPlanServantDirective, he]
  · intro g acctData planId tcs opts itp result ps ms hms hg
    by_cases he : ps.enabled.servant
    · simp [processPlanServantDirective, he, hms, hg]
    · simp [processPlanServantDirective, he]
  · intro cur cc tgt tc opts
    simp only [_computeServantEnhancementRequirements, _updateResultForSkills,
      updateResultForCostumes, List.foldl_nil]
    cases tgt.ascension <;> simp

/-- Witness for C8: skipping holds at a concrete directive whose instance id
(and, in the second part, catalog id) has no entry, and the empty catalog unit
yields the zero record at concrete states. -/
theorem C8_graceful_degradation_witness :
    (findAssoc (_preProcessMasterAccount acctAsc).servants 99 = none ∧
      processPlanServantDirective [(1, gsAscension)] (_preProcessMasterAccount acctAsc) 11 []
          _defaultOptions true resultPrev { instanceId := 99, enabled := allOn } =
        resultPrev) ∧
    (findAssoc (_preProcessMasterAccount acctAsc).servants 7 = some servant7 ∧
      findAssoc ([] : List (Nat × GameServant)) servant7.gameId = none ∧
      processPlanServantDirective [] (_preProcessMasterAccount acctAsc) 11 []
          _defaultOptions true resultPrev directiveAsc4 =
        resultPrev) ∧
    (_computeServantEnhancementRequirements
        { skillMaterials := [], appendSkillMaterials := [], ascensionMaterials := none,
          costumes := [] } servant7.enhancements [] directiveAsc4.enhancements none
        _defaultOptions =
      _instantiateEnhancementRequirements) :=
  ⟨⟨by decide,
      C8_graceful_degradation.1 [(1, gsAscension)] (_preProcessMasterAccount acctAsc) 11 []
        _defaultOptions true resultPrev { instanceId := 99, enabled := allOn } (by decide)⟩,
    ⟨by decide, by decide,
      C8_graceful_degradation.2.1 [] (_preProcessMasterAccount acctAsc) 11 []
        _defaultOptions true resultPrev directiveAsc4 servant7 (by decide) (by decide)⟩,
    C8_graceful_degradation.2.2 servant7.enhancements [] directiveAsc4.enhancements none
      _defaultOptions⟩

theorem foldl_plans_enabled_irrelevant (g : List (Nat × GameServant))
    (acctData : MasterAccountData) (opts : ComputationOptions) (plans : List Plan)
    (e : PlanEnabled) :
    ∀ (start : PlanRequirements),
      (plans.map (fun p => { p with enabled := e })).foldl
          (fun r plan => _computePlanRequirements r g acctData plan opts false) start =
        plans.foldl (fun r plan => _computePlanRequirements r g acctData plan opts false)
          start := by
  induction plans with
  | nil => intro start; rfl
  | cons p rest ih =>
    intro start
    simp only [List.map_cons, List.foldl_cons]
    rw [show _computePlanRequirements start g acctData { p with enabled := e } opts false =
      _computePlanRequirements start g acctData p opts false from rfl]
    exact ih _

/-- C10: when no options override is supplied, `computePlanRequirements`
derives the plan-level options solely from the target plan's enabled flags
(calling it with the parsed target-plan options gives the same result), and
the per-plan computation never reads a plan's own plan-level enabled flags —
replacing them by arbitrary flags, for one plan or for every preceding plan,
leaves the result unchanged. -/
theorem C10_plan_level_options_from_target_only :
    (∀ (result : PlanRequirements) (g : List (Nat × GameServant))
        (acctData : MasterAccountData) (p : Plan) (e : PlanEnabled)
        (opts : ComputationOptions) (itp : Bool),
      _computePlanRequirements result g acctData { p with enabled := e } opts itp =
        _computePlanRequirements result g acctData p opts itp) ∧
    (∀ (g : List (Nat × GameServant)) (acct : MasterAccount) (target : Plan)
        (previous : Option (List Plan)),
      computePlanRequirements g acct target previous none =
        computePlanRequirements g acct target previous
          (some (_parseComputationOptions target.enabled))) ∧
    (∀ (g : List (Nat × GameServant)) (acct : MasterAccount) (target : Plan)
        (previous : List Plan) (e : PlanEnabled),
      computePlanRequirements g acct target
          (some (previous.map (fun p => { p with enabled := e }))) none =
        computePlanRequirements g acct target (some previous) none) := by
  refine ⟨?_, ?_, ?_⟩
  · intro result g acctData p e opts itp
    rfl
  · intro g acct target previous
    rfl
  · intro g acct target previous e
    exact congrArg
      (fun r => _computePlanRequirements r g (_preProcessMasterAccount acct) target
        (_parseComputationOptions target.enabled) true)
      (foldl_plans_enabled_irrelevant g (_preProcessMasterAccount acct)
        (_parseComputationOptions target.enabled) previous e _instantiatePlanRequirements)

end PlanComputation
